import Mathlib

/-!
Verification development for the `xmlbufrw` crate: the encoding-detection
heuristic (`src/enc_detect.rs`) and the transcoding read buffer with
end-of-line normalization (`src/lib.rs`), shallowly embedded over byte lists
(`List Nat`, one entry per byte) and decoded text as `List Char`.
-/

namespace Xmlbufrw

/-! ### External codec library (label table and incremental decoders)

The crate delegates byte decoding to an external codec library
(`encoding_rs`): a case-insensitive WHATWG label table resolving encoding
names to canonical encodings, and incremental decoders that fail on
malformed input.  These are modelled here from that library's documented
behaviour (the spec treats the codec library as an external collaborator
exposing exactly this interface). -/

/-- ASCII lowercasing of a name (Rust `str::to_lowercase` restricted to the
ASCII encoding labels this crate deals in), written over the character list
so that it evaluates by reduction. -/
def asciiLower (s : String) : String := String.mk (s.data.map Char.toLower)

/-- Modelled from the spec: the external codec library's case-insensitive
label table (`encoding_rs::Encoding::for_label_no_replacement`).  Returns the
canonical name of the encoding a label resolves to, or `none` for an
unrecognized label.  Only the labels relevant to this crate's vocabulary are
tabulated; note that per the WHATWG table the labels `ascii`, `us-ascii`,
`iso-8859-1` and `latin1` all resolve to the `windows-1252` encoding. -/
def forLabel (label : String) : Option String :=
  match asciiLower label with
  | "utf-8" | "utf8" | "unicode-1-1-utf-8" => some ("UTF-8")
  | "utf-16" | "utf-16le" | "ucs-2" | "unicode" => some ("UTF-16LE")
  | "utf-16be" => some ("UTF-16BE")
  | "ascii" | "us-ascii" | "iso-8859-1" | "latin1" | "l1" | "cp1252"
  | "windows-1252" | "x-cp1252" | "iso8859-1" | "ibm819" => some ("windows-1252")
  | "iso-8859-2" | "latin2" | "iso8859-2" => some ("ISO-8859-2")
  | "koi8-r" | "koi8" | "cskoi8r" => some ("KOI8-R")
  | "ibm866" | "866" | "cp866" => some ("IBM866")
  | _ => none

/-- Error message produced by the modelled decoders on malformed input
(`decoder_helper` formats the offending bytes into the message; the model
keeps a fixed text since no claim inspects it). -/
def malformedInputMsg : String := "Malformed input."

/-- State of an incremental decoder obtained from the codec library.
`utf8` carries the bytes of a not-yet-complete multi-byte sequence;
`utf16` carries an unpaired byte and an unpaired high surrogate;
`win1252` (single-byte, used for the `ascii` name) is stateless. -/
inductive Decoder where
  | utf8 (pending : List Nat)
  | utf16 (bigEndian : Bool) (pendingByte : Option Nat) (pendingLead : Option Nat)
  | win1252
deriving DecidableEq, Repr

/-- Modelled from the spec: one pass of the incremental UTF-8 decoder over
available bytes (WHATWG UTF-8 decode algorithm, as implemented by the codec
library).  Returns the decoded characters plus the trailing bytes of an
incomplete sequence, or fails on a malformed sequence. -/
def utf8Run : List Nat → Except String (List Char × List Nat)
  | [] => .ok ([], [])
  | b :: rest =>
    if b < 0x80 then
      (utf8Run rest).map (fun p => (Char.ofNat b :: p.1, p.2))
    else if 0xC2 ≤ b ∧ b ≤ 0xDF then
      match rest with
      | [] => .ok ([], [b])
      | c1 :: rest1 =>
        if 0x80 ≤ c1 ∧ c1 ≤ 0xBF then
          (utf8Run rest1).map (fun p =>
            (Char.ofNat ((b - 0xC0) * 0x40 + (c1 - 0x80)) :: p.1, p.2))
        else .error malformedInputMsg
    else if 0xE0 ≤ b ∧ b ≤ 0xEF then
      let lo := if b = 0xE0 then 0xA0 else 0x80
      let hi := if b = 0xED then 0x9F else 0xBF
      match rest with
      | [] => .ok ([], [b])
      | c1 :: rest1 =>
        if lo ≤ c1 ∧ c1 ≤ hi then
          match rest1 with
          | [] => .ok ([], [b, c1])
          | c2 :: rest2 =>
            if 0x80 ≤ c2 ∧ c2 ≤ 0xBF then
              (utf8Run rest2).map (fun p =>
                (Char.ofNat ((b - 0xE0) * 0x1000 + (c1 - 0x80) * 0x40 + (c2 - 0x80)) :: p.1,
                 p.2))
            else .error malformedInputMsg
        else .error malformedInputMsg
    else if 0xF0 ≤ b ∧ b ≤ 0xF4 then
      let lo := if b = 0xF0 then 0x90 else 0x80
      let hi := if b = 0xF4 then 0x8F else 0xBF
      match rest with
      | [] => .ok ([], [b])
      | c1 :: rest1 =>
        if lo ≤ c1 ∧ c1 ≤ hi then
          match rest1 with
          | [] => .ok ([], [b, c1])
          | c2 :: rest2 =>
            if 0x80 ≤ c2 ∧ c2 ≤ 0xBF then
              match rest2 with
              | [] => .ok ([], [b, c1, c2])
              | c3 :: rest3 =>
                if 0x80 ≤ c3 ∧ c3 ≤ 0xBF then
                  (utf8Run rest3).map (fun p =>
                    (Char.ofNat ((b - 0xF0) * 0x40000 + (c1 - 0x80) * 0x1000 +
                      (c2 - 0x80) * 0x40 + (c3 - 0x80)) :: p.1, p.2))
                else .error malformedInputMsg
            else .error malformedInputMsg
        else .error malformedInputMsg
    else .error malformedInputMsg

/-- Modelled from the spec: group a byte list into UTF-16 code units with the
given endianness, returning the units and a leftover unpaired byte. -/
def utf16Units (bigEndian : Bool) : List Nat → List Nat × Option Nat
  | [] => ([], none)
  | [b] => ([], some b)
  | b1 :: b2 :: rest =>
    let u := if bigEndian then b1 * 256 + b2 else b2 * 256 + b1
    let p := utf16Units bigEndian rest
    (u :: p.1, p.2)

/-- Modelled from the spec: turn UTF-16 code units into characters, pairing
surrogates; an unpaired surrogate is malformed.  Returns the characters and a
pending unpaired high surrogate. -/
def utf16Chars : Option Nat → List Nat → Except String (List Char × Option Nat)
  | pl, [] => .ok ([], pl)
  | pl, u :: us =>
    if 0xD800 ≤ u ∧ u ≤ 0xDBFF then
      match pl with
      | some _ => .error malformedInputMsg
      | none => utf16Chars (some u) us
    else if 0xDC00 ≤ u ∧ u ≤ 0xDFFF then
      match pl with
      | some l =>
        (utf16Chars none us).map (fun p =>
          (Char.ofNat (0x10000 + (l - 0xD800) * 0x400 + (u - 0xDC00)) :: p.1, p.2))
      | none => .error malformedInputMsg
    else
      match pl with
      | some _ => .error malformedInputMsg
      | none => (utf16Chars none us).map (fun p => (Char.ofNat u :: p.1, p.2))

/-- Modelled from the spec: the windows-1252 single-byte decode table
(identity outside 0x80..0x9F). -/
def win1252Char (b : Nat) : Char :=
  if b < 0x80 ∨ 0xA0 ≤ b then Char.ofNat b
  else match b with
  | 0x80 => Char.ofNat 0x20AC
  | 0x82 => Char.ofNat 0x201A
  | 0x83 => Char.ofNat 0x0192
  | 0x84 => Char.ofNat 0x201E
  | 0x85 => Char.ofNat 0x2026
  | 0x86 => Char.ofNat 0x2020
  | 0x87 => Char.ofNat 0x2021
  | 0x88 => Char.ofNat 0x02C6
  | 0x89 => Char.ofNat 0x2030
  | 0x8A => Char.ofNat 0x0160
  | 0x8B => Char.ofNat 0x2039
  | 0x8C => Char.ofNat 0x0152
  | 0x8E => Char.ofNat 0x017D
  | 0x91 => Char.ofNat 0x2018
  | 0x92 => Char.ofNat 0x2019
  | 0x93 => Char.ofNat 0x201C
  | 0x94 => Char.ofNat 0x201D
  | 0x95 => Char.ofNat 0x2022
  | 0x96 => Char.ofNat 0x2013
  | 0x97 => Char.ofNat 0x2014
  | 0x98 => Char.ofNat 0x02DC
  | 0x99 => Char.ofNat 0x2122
  | 0x9A => Char.ofNat 0x0161
  | 0x9B => Char.ofNat 0x203A
  | 0x9C => Char.ofNat 0x0153
  | 0x9E => Char.ofNat 0x017E
  | 0x9F => Char.ofNat 0x0178
  | _ => Char.ofNat b

/-- Embedding of `decoder_helper` (enc_detect.rs): feed one buffer to an
incremental decoder without replacement, failing on malformed input,
otherwise returning the advanced decoder and the decoded text. -/
def decoder_helper (d : Decoder) (input : List Nat) : Except String (Decoder × List Char) :=
  match d with
  | .utf8 pending =>
    match utf8Run (pending ++ input) with
    | .error e => .error e
    | .ok (cs, rem) => .ok (.utf8 rem, cs)
  | .utf16 be pb pl =>
    let bytes := (match pb with | some b => [b] | none => []) ++ input
    let up := utf16Units be bytes
    match utf16Chars pl up.1 with
    | .error e => .error e
    | .ok (cs, pl') => .ok (.utf16 be up.2 pl', cs)
  | .win1252 => .ok (.win1252, input.map win1252Char)

/-! ### The `Encoding` type (enc_detect.rs) -/

/-- Embedding of `enc_detect::Encoding`: a closed variant set over the
encodings the crate can decode, each carrying the `definitive` flag. -/
inductive Encoding where
  | Ascii (definitive : Bool)
  | Utf8 (definitive : Bool)
  | Utf16Le (definitive : Bool)
  | Utf16Be (definitive : Bool)
deriving DecidableEq, Repr

/-- Embedding of `Encoding::get_name`. -/
def Encoding.get_name : Encoding → String
  | .Ascii _ => "ascii"
  | .Utf8 _ => "utf-8"
  | .Utf16Le _ => "utf-16le"
  | .Utf16Be _ => "utf-16be"

/-- Embedding of `Encoding::get_char_width`. -/
def Encoding.get_char_width : Encoding → Nat
  | .Ascii _ => 1
  | .Utf8 _ => 1
  | .Utf16Le _ => 2
  | .Utf16Be _ => 2

/-- Embedding of `Encoding::is_definitive`. -/
def Encoding.is_definitive : Encoding → Bool
  | .Ascii d => d
  | .Utf8 d => d
  | .Utf16Le d => d
  | .Utf16Be d => d

/-- Embedding of `Encoding::new_from_name`: resolve the requested label
through the codec library's table, then accept only the four canonical names
the crate can decode. -/
def Encoding.new_from_name (name : String) (is_definitive : Bool) : Except String Encoding :=
  match forLabel name with
  | some canonical =>
    match asciiLower canonical with
    | "ascii" => .ok (.Ascii is_definitive)
    | "utf-8" => .ok (.Utf8 is_definitive)
    | "utf-16le" => .ok (.Utf16Le is_definitive)
    | "utf-16be" => .ok (.Utf16Be is_definitive)
    | enc => .error ("Unsupported encoding requested: " ++ enc)
  | none => .error ("Unsupported encoding requested: " ++ name)

/-- Error message for a quad that is neither a recognized pattern nor a
plausible single-byte encoding (contains a zero byte). -/
def unsupportedMultiByteMsg : String :=
  "Missing BOM and no xml declaration, or Unsupported multi-byte file encoding."

/-- Embedding of `Encoding::new_from_buffer`: match the first four bytes
against the fixed BOM / declaration-pattern priority table, returning the
guessed encoding and the number of BOM bytes to strip. -/
def Encoding.new_from_buffer (buf : List Nat) : Except String (Encoding × Nat) :=
  match buf with
  | [b0, b1, b2, b3] =>
    if b0 = 0xEF ∧ b1 = 0xBB ∧ b2 = 0xBF then
      (Encoding.new_from_name ("utf-8") true).map (fun e => (e, 3))
    else if b0 = 0xFF ∧ b1 = 0xFE ∧ b2 ≠ 0x00 ∧ b3 = 0x00 then
      (Encoding.new_from_name ("utf-16le") true).map (fun e => (e, 2))
    else if b0 = 0xFE ∧ b1 = 0xFF ∧ b2 = 0x00 ∧ b3 ≠ 0x00 then
      (Encoding.new_from_name ("utf-16be") true).map (fun e => (e, 2))
    else if b0 = 0x3C ∧ b1 = 0x3F ∧ b2 = 0x78 ∧ b3 = 0x6D then
      (Encoding.new_from_name ("utf-8") false).map (fun e => (e, 0))
    else if b0 = 0x3C ∧ b1 = 0x00 ∧ b2 = 0x3F ∧ b3 = 0x00 then
      (Encoding.new_from_name ("utf-16le") true).map (fun e => (e, 0))
    else if b0 = 0x00 ∧ b1 = 0x3C ∧ b2 = 0x00 ∧ b3 = 0x3F then
      (Encoding.new_from_name ("utf-16be") true).map (fun e => (e, 0))
    else if b0 = 0x00 ∨ b1 = 0x00 ∨ b2 = 0x00 ∨ b3 = 0x00 then
      .error unsupportedMultiByteMsg
    else
      (Encoding.new_from_name ("utf-8") false).map (fun e => (e, 0))
  | _ => .error ("buffer is not four bytes")

/-- Embedding of `Encoding::get_decoder`: resolve this encoding's own name
through the label table and hand out a fresh decoder for the canonical
encoding it maps to (for the `ascii` name this is a windows-1252 decoder). -/
def Encoding.get_decoder (e : Encoding) : Except String Decoder :=
  match forLabel e.get_name with
  | none => .error ("Unrecognized input encoding name: " ++ e.get_name)
  | some canonical =>
    match canonical with
    | "UTF-16LE" => .ok (.utf16 false none none)
    | "UTF-16BE" => .ok (.utf16 true none none)
    | "windows-1252" => .ok .win1252
    | _ => .ok (.utf8 [])

/-- Embedding of the fixed single-byte compatibility allow-list inside
`Encoding::encoding_decl_is_compatible` (the `match other_name` table). -/
def singleByteCompat (other_name : String) : Bool :=
  match other_name with
  | "ascii" => true
  | "utf-8" => true
  | "ibm866" => true
  | "iso-8859-1" => true
  | "iso-8859-2" => true
  | "iso-8859-3" => true
  | "iso-8859-4" => true
  | "iso-8859-5" => true
  | "iso-8859-6" => true
  | "iso-8859-7" => true
  | "iso-8859-8" => true
  | "iso-8859-10" => true
  | "iso-8859-13" => true
  | "iso-8859-14" => true
  | "iso-8859-15" => true
  | "iso-8859-16" => true
  | "koi8-r" => true
  | "koi8-u" => true
  | "mac-roman" => true
  | "windows-874" => true
  | "windows-1250" => true
  | "windows-1251" => true
  | "windows-1252" => true
  | "windows-1253" => true
  | "windows-1254" => true
  | "windows-1255" => true
  | "windows-1256" => true
  | "windows-1257" => true
  | "windows-1258" => true
  | "mac-cyrillic" => true
  | _ => false

/-- Embedding of `Encoding::encoding_decl_is_compatible`: resolve the
declared name, then compare canonical lowercase names; identical names are
compatible, a definitive mismatch is incompatible, a non-definitive
utf-8/ascii guess accepts the single-byte allow-list, and anything else is an
error. -/
def Encoding.encoding_decl_is_compatible (e : Encoding) (encoding_decl_name : String) :
    Except String Bool :=
  match forLabel encoding_decl_name with
  | none => .error ("Unrecognized input encoding name: " ++ encoding_decl_name)
  | some canonical =>
    let self_name := asciiLower e.get_name
    let other_name := asciiLower canonical
    if self_name = other_name then .ok true
    else if e.is_definitive ∧ self_name ≠ other_name then .ok false
    else if self_name = "utf-8" ∨ self_name = "ascii" then .ok (singleByteCompat other_name)
    else
      .error ("Unable to determine compatibility of detected encoding " ++ self_name ++
        " and declared encoding " ++ other_name)

/-! ### The detection pipeline (`detect_encoding_with_suggestion`) -/

/-- Unicode `White_Space` property, as used by Rust's `char::is_whitespace`
and `str::split_whitespace`. -/
def rustIsWhitespace (c : Char) : Bool :=
  c = '\u0009' || c = '\u000a' || c = '\u000b' || c = '\u000c' || c = '\u000d' ||
  c = ' ' || c = '\u0085' || c = '\u00a0' || c = '\u1680' ||
  c = '\u2000' || c = '\u2001' || c = '\u2002' || c = '\u2003' || c = '\u2004' ||
  c = '\u2005' || c = '\u2006' || c = '\u2007' || c = '\u2008' || c = '\u2009' ||
  c = '\u200a' || c = '\u2028' || c = '\u2029' || c = '\u202f' || c = '\u205f' ||
  c = '\u3000'

/-- Number of bytes of the UTF-8 representation of a character (Rust
`String::len` counts bytes of the UTF-8 representation). -/
def charUtf8Size (c : Char) : Nat :=
  if c.toNat < 0x80 then 1
  else if c.toNat < 0x800 then 2
  else if c.toNat < 0x10000 then 3
  else 4

/-- UTF-8 byte length of a character list, modelling Rust `String::len`. -/
def utf8Length (cs : List Char) : Nat := (cs.map charUtf8Size).sum

/-- The literal `"<?xml "` the detector compares the decoded lead against. -/
def declLiteral : List Char := ['<', '?', 'x', 'm', 'l', ' ']

/-- The per-character comparison inside the `has_xml_decl` check: a
whitespace literal character matches any all-whitespace decode, otherwise
the decode must be exactly the literal character. -/
def declCharMatches (decl_char : Char) (s : List Char) : Bool :=
  (rustIsWhitespace decl_char && s.all rustIsWhitespace) || (s = [decl_char])

/-- Embedding of the `has_xml_decl` computation: decode the prebuffer one
`char_width`-sized chunk at a time with the (stateful) decoder, zip against
the `"<?xml "` literal, and require every pair to match; the iterator
short-circuits at the first mismatch or decode error. -/
def checkDeclLead : Decoder → Nat → List Nat → List Char → Bool × Decoder
  | dec, _, _, [] => (true, dec)
  | dec, _, [], _ :: _ => (true, dec)
  | dec, w, bytes@(_ :: _), dc :: dcs =>
    match decoder_helper dec (bytes.take w) with
    | .error _ => (false, dec)
    | .ok (dec', s) =>
      if declCharMatches dc s then checkDeclLead dec' w (bytes.drop w) dcs
      else (false, dec')

/-- Error message of `Read::read_exact` when the source runs out of bytes. -/
def readExactEofMsg : String := "failed to fill whole buffer"

/-- Error message when the declaration scan exceeds the hard cap. -/
def malformedDeclMsg : String :=
  "Input format error: input doesn't appear to be valid xml."

/-- Embedding of the `while !xml_decl.ends_with("?>")` scan: read one
character width at a time, append the decoded text to the declaration, and
give up with `malformedDeclMsg` once the declaration exceeds 256 bytes.
Returns the final declaration and the bytes consumed from the source.  The
`fuel` argument only makes the recursion structural: the detector always
passes `rest.length`, and each iteration consumes `w ≥ 1` bytes, so the
zero-fuel arm (mirroring the end-of-source read failure) is reached exactly
when the source is exhausted. -/
def scanDecl : Decoder → Nat → List Char → List Nat → Nat →
    Except String (List Char × List Nat)
  | dec, w, decl, rest, fuel =>
    if (['?', '>']).isSuffixOf decl then .ok (decl, [])
    else if rest.length < w ∨ w = 0 then .error readExactEofMsg
    else
      match fuel with
      | 0 => .error readExactEofMsg
      | fuel' + 1 =>
        match decoder_helper dec (rest.take w) with
        | .error e => .error e
        | .ok (dec', s) =>
          let decl' := decl ++ s
          if utf8Length decl' > 256 then .error malformedDeclMsg
          else
            match scanDecl dec' w decl' (rest.drop w) fuel' with
            | .error e => .error e
            | .ok (d, consumed) => .ok (d, rest.take w ++ consumed)

/-- Helper for `tokenizeDecl`: Rust `str::split_whitespace` over a character
list (maximal non-whitespace runs, no empty pieces). -/
def splitWsAux : List Char → List Char → List (List Char)
  | acc, [] => if acc = [] then [] else [acc.reverse]
  | acc, c :: cs =>
    if rustIsWhitespace c then
      if acc = [] then splitWsAux [] cs else acc.reverse :: splitWsAux [] cs
    else splitWsAux (c :: acc) cs

/-- Rust `str::split_whitespace` over a character list. -/
def splitWs (cs : List Char) : List (List Char) := splitWsAux [] cs

/-- Embedding of the declaration tokenizer: split by whitespace, then each
piece by `=`, dropping empty tokens. -/
def tokenizeDecl (decl : List Char) : List (List Char) :=
  ((splitWs decl).flatMap (fun t => t.splitOn '=')).filter (fun t => t ≠ [])

/-- The `encoding` attribute keyword as a character list. -/
def encodingTok : List Char := ['e', 'n', 'c', 'o', 'd', 'i', 'n', 'g']

/-- Error message when detection finds no BOM, no declaration and no hint. -/
def noBomNoDeclMsg : String :=
  "Unable to detect input file encoding.  No Byte Order Mark, and no xml declaration."

/-- Error message for an empty encoding value token (unreachable in practice
because empty tokens are filtered out). -/
def unquotedValueMsg : String := "Improperly formatted encodingdecl: unquoted value."

/-- Error message for a declared encoding incompatible with a definitive
detection. -/
def incompatibleMsg (detected declared : String) : String :=
  "Detected input encoding " ++ detected ++ " is incompatible with declared encoding " ++
    declared

/-- Embedding of the no-declaration resolution (enc_detect.rs lines 66-78):
a definitive guess stands; otherwise a supplied suggestion is resolved and
marked definitive; otherwise detection fails as ambiguous. -/
def resolveNoDecl (suggested_encoding : Option String) (guess : Encoding)
    (prebuf : List Nat) : Except String (Encoding × List Nat) :=
  if guess.is_definitive then .ok (guess, prebuf)
  else
    match suggested_encoding with
    | some name => (Encoding.new_from_name name true).map (fun e => (e, prebuf))
    | none => .error noBomNoDeclMsg

/-- Embedding of the declaration resolution (enc_detect.rs lines 101-147):
tokenize the declaration, look for the `encoding` token, treat the first
character of the following token as the quote and read the name up to its
recurrence; a definitive guess must be compatible with the declared name and
is returned unchanged, a non-definitive guess is returned unchanged as well
(the code returns `encoding_guess` in both branches). -/
def resolveFromDecl (suggested_encoding : Option String) (guess : Encoding)
    (prebuf : List Nat) (xml_decl : List Char) : Except String (Encoding × List Nat) :=
  match (tokenizeDecl xml_decl).dropWhile (fun t => t ≠ encodingTok) with
  | [] => .ok (guess, prebuf)
  | _ :: rest =>
    match rest with
    | encoding_val :: _ =>
      match encoding_val with
      | [] => .error unquotedValueMsg
      | starting_quote :: cs =>
        let encoding_name := String.mk (cs.takeWhile (fun c => c ≠ starting_quote))
        if guess.is_definitive then
          match guess.encoding_decl_is_compatible encoding_name with
          | .error e => .error e
          | .ok true => .ok (guess, prebuf)
          | .ok false => .error (incompatibleMsg guess.get_name encoding_name)
        else .ok (guess, prebuf)
    | [] =>
      match suggested_encoding with
      | some name => (Encoding.new_from_name name false).map (fun e => (e, prebuf))
      | none => (Encoding.new_from_name ("utf-8") false).map (fun e => (e, prebuf))

/-- First stage of detection: read the quad, guess from it, seed the
prebuffer with everything after the BOM, and extend the prebuffer to the
width of the `"<?xml "` literal in the guessed encoding.  Returns the guess,
the prebuffer and the unread remainder of the source. -/
def detectStage1 (src : List Nat) : Except String (Encoding × List Nat × List Nat) :=
  if src.length < 4 then .error readExactEofMsg
  else
    match Encoding.new_from_buffer (src.take 4) with
    | .error e => .error e
    | .ok (guess, bom_bytes) =>
      let prebuf0 := (src.take 4).drop bom_bytes
      let need := 6 * guess.get_char_width - prebuf0.length
      let rest0 := src.drop 4
      if rest0.length < need then .error readExactEofMsg
      else .ok (guess, prebuf0 ++ rest0.take need, rest0.drop need)

/-- Embedding of `detect_encoding_with_suggestion` over a finite byte
source: guess from the quad, check for an XML declaration lead, and resolve
through the no-declaration or declaration path; the returned prebuffer holds
every byte consumed after the BOM. -/
def detect_encoding_with_suggestion (suggested_encoding : Option String)
    (src : List Nat) : Except String (Encoding × List Nat) :=
  match detectStage1 src with
  | .error e => .error e
  | .ok (guess, prebuf, rest) =>
    match guess.get_decoder with
    | .error e => .error e
    | .ok dec0 =>
      let hd := checkDeclLead dec0 guess.get_char_width prebuf declLiteral
      if hd.1 then
        match decoder_helper hd.2 prebuf with
        | .error e => .error e
        | .ok (dec2, declStr) =>
          match scanDecl dec2 guess.get_char_width declStr rest rest.length with
          | .error e => .error e
          | .ok (xml_decl, consumed) =>
            resolveFromDecl suggested_encoding guess (prebuf ++ consumed) xml_decl
      else resolveNoDecl suggested_encoding guess prebuf

/-! ### The transcoding read buffer (`lib.rs`)

The stream wraps the byte source and the resolved decoder; each `fill_buf`
refill decodes one raw buffer into text and normalizes line endings.  The
model works at the decoded-text level: the byte source plus decoder is
abstracted as the list of decoded chunks the successive
`fill_input_buf`-plus-decode steps produce, and the delivered output is the
normalized character list. -/

/-- Embedding of the end-of-line normalization closure in `fill_buf`
(lib.rs lines 141-164), one character at a time with the `seen_cr` flag:
CR emits LF and sets the flag; LF or NEL is dropped when the flag is set and
emits LF otherwise; LS emits LF; anything else is emitted unchanged; every
branch except CR clears the flag. -/
def normalizeEolFrom (seen_cr : Bool) : List Char → List Char
  | [] => []
  | c :: cs =>
    if c = '\u000d' then '\u000a' :: normalizeEolFrom true cs
    else if c = '\u000a' ∨ c = '\u0085' then
      if seen_cr then normalizeEolFrom false cs
      else '\u000a' :: normalizeEolFrom seen_cr cs
    else if c = '\u2028' then '\u000a' :: normalizeEolFrom false cs
    else c :: normalizeEolFrom false cs

/-- One whole normalization pass as `fill_buf` performs it on a decoded
chunk: the `seen_cr` local is (re)initialized to `false` at the start of
every fill cycle. -/
def normalizeEol (cs : List Char) : List Char := normalizeEolFrom false cs

/-- Embedding of the `XmlReadBuffer` stream state, at the decoded-text
level: `chunks` are the decoded texts the remaining
`fill_input_buf`-plus-decode steps will yield (the byte source composed with
the decoder), `output_buf` and `output_pos` are the decoded output buffer
and cursor.  Note there is no carried end-of-line flag in the state: the
source keeps `seen_cr` as a local of `fill_buf`. -/
structure XmlReadBuffer where
  chunks : List (List Char)
  output_buf : List Char
  output_pos : Nat
deriving DecidableEq, Repr

/-- Embedding of `XmlReadBuffer` construction: the output buffer starts
empty with the cursor at zero. -/
def initReadBuffer (chunks : List (List Char)) : XmlReadBuffer :=
  { chunks := chunks, output_buf := [], output_pos := 0 }

/-- Embedding of `BufRead::fill_buf`: when the cursor has reached the end of
the output buffer, pull and decode the next raw chunk (an exhausted source
decodes to empty text), normalize its line endings with a fresh `seen_cr`
local, and reset the cursor; return the unconsumed slice of the output
buffer together with the updated stream. -/
def XmlReadBuffer.fill_buf (b : XmlReadBuffer) : List Char × XmlReadBuffer :=
  let b' :=
    if b.output_buf.length ≤ b.output_pos then
      match b.chunks with
      | [] =>
        { chunks := ([] : List (List Char)), output_buf := normalizeEol [], output_pos := 0 }
      | chunk :: rest =>
        { chunks := rest, output_buf := normalizeEol chunk, output_pos := 0 }
    else b
  (b'.output_buf.drop b'.output_pos, b')

/-- Embedding of `BufRead::consume`: advance the cursor, clamped to the
output buffer length. -/
def XmlReadBuffer.consume (b : XmlReadBuffer) (amt : Nat) : XmlReadBuffer :=
  { b with output_pos := min (b.output_pos + amt) b.output_buf.length }

/-- Driver modelling `Read::read_to_string` over the stream: repeatedly
`fill_buf`, append what was returned and `consume` it, stopping at the first
empty fill (`fuel` bounds the loop; `chunks.length + 1` rounds always
suffice). -/
def readAllFuel : Nat → XmlReadBuffer → List Char
  | 0, _ => []
  | fuel + 1, b =>
    let p := b.fill_buf
    if p.1 = [] then []
    else p.1 ++ readAllFuel fuel (p.2.consume p.1.length)

/-- No carriage return, NEL or line separator occurs in the text. -/
def isEolClean (cs : List Char) : Bool :=
  cs.all (fun c => c ≠ '\u000d' && c ≠ '\u0085' && c ≠ '\u2028')

/-! ### Concrete inputs used in claim evaluations -/

/-- ASCII bytes of the declaration naming iso-8859-1, with no BOM. -/
def c1Input : List Nat :=
  ("<?xml version=\"1.0\" encoding=\"iso-8859-1\"?>").toList.map Char.toNat

/-- UTF-16LE BOM followed by a declaration claiming utf-8, in UTF-16LE. -/
def c5Input : List Nat :=
  [0xFF, 0xFE] ++ (("<?xml version=\"1.0\" encoding=\"utf-8\"?>").toList.flatMap
    (fun c => [c.toNat, 0]))

/-- ASCII bytes of a declaration whose encoding value is unquoted. -/
def c8Input : List Nat :=
  ("<?xml version=\"1.0\" encoding=utf-8?>").toList.map Char.toNat

/-- UTF-8 BOM followed by the ASCII bytes `ABCDEF`. -/
def c3Input : List Nat := [0xEF, 0xBB, 0xBF] ++ (("ABCDEF").toList.map Char.toNat)

/-- The ASCII bytes `abcdef`: no BOM and no declaration lead. -/
def c6Input : List Nat := ("abcdef").toList.map Char.toNat

/-! ### Helper lemmas about end-of-line normalization -/

/-- Unfolding lemma for `isEolClean` on a cons cell. -/
theorem isEolClean_cons (c : Char) (l : List Char) :
    isEolClean (c :: l) =
      ((decide (c ≠ '\u000d') && decide (c ≠ '\u0085') && decide (c ≠ '\u2028')) &&
        isEolClean l) := rfl

/-- Normalization output never contains CR, NEL or LS, whatever the incoming
flag. -/
theorem normalizeEolFrom_clean (s : Bool) (cs : List Char) :
    isEolClean (normalizeEolFrom s cs) = true := by
  induction cs generalizing s with
  | nil => rfl
  | cons c cs ih =>
    by_cases h1 : c = '\u000d'
    · subst h1
      rw [show normalizeEolFrom s ('\u000d' :: cs) = '\u000a' :: normalizeEolFrom true cs
          from rfl, isEolClean_cons, ih true]
      rfl
    · by_cases h2 : c = '\u000a'
      · subst h2
        cases s
        · rw [show normalizeEolFrom false ('\u000a' :: cs) =
              '\u000a' :: normalizeEolFrom false cs from rfl, isEolClean_cons, ih false]
          rfl
        · rw [show normalizeEolFrom true ('\u000a' :: cs) = normalizeEolFrom false cs
              from rfl]
          exact ih false
      · by_cases h3 : c = '\u0085'
        · subst h3
          cases s
          · rw [show normalizeEolFrom false ('\u0085' :: cs) =
                '\u000a' :: normalizeEolFrom false cs from rfl, isEolClean_cons, ih false]
            rfl
          · rw [show normalizeEolFrom true ('\u0085' :: cs) = normalizeEolFrom false cs
                from rfl]
            exact ih false
        · by_cases h4 : c = '\u2028'
          · subst h4
            rw [show normalizeEolFrom s ('\u2028' :: cs) =
                '\u000a' :: normalizeEolFrom false cs from rfl, isEolClean_cons, ih false]
            rfl
          · have hor : ¬(c = '\u000a' ∨ c = '\u0085') := by
              rintro (hc | hc) <;> [exact h2 hc; exact h3 hc]
            rw [show normalizeEolFrom s (c :: cs) =
                if c = '\u000d' then '\u000a' :: normalizeEolFrom true cs
                else if c = '\u000a' ∨ c = '\u0085' then
                  if s then normalizeEolFrom false cs
                  else '\u000a' :: normalizeEolFrom s cs
                else if c = '\u2028' then '\u000a' :: normalizeEolFrom false cs
                else c :: normalizeEolFrom false cs from rfl,
              if_neg h1, if_neg hor, if_neg h4, isEolClean_cons, ih false]
            simp [h1, h3, h4]

/-- Normalization is the identity on text free of CR, NEL and LS (starting
with the flag clear). -/
theorem normalizeEolFrom_id_of_clean (cs : List Char) (h : isEolClean cs = true) :
    normalizeEolFrom false cs = cs := by
  induction cs with
  | nil => rfl
  | cons c cs ih =>
    rw [isEolClean_cons] at h
    simp only [Bool.and_eq_true, decide_eq_true_eq] at h
    obtain ⟨⟨⟨hcr, hnel⟩, hls⟩, hrest⟩ := h
    by_cases hlf : c = '\u000a'
    · subst hlf
      rw [show normalizeEolFrom false ('\u000a' :: cs) =
          '\u000a' :: normalizeEolFrom false cs from rfl, ih hrest]
    · have hor : ¬(c = '\u000a' ∨ c = '\u0085') := by
        rintro (hc | hc) <;> [exact hlf hc; exact hnel hc]
      rw [show normalizeEolFrom false (c :: cs) =
          if c = '\u000d' then '\u000a' :: normalizeEolFrom true cs
          else if c = '\u000a' ∨ c = '\u0085' then
            if false then normalizeEolFrom false cs
            else '\u000a' :: normalizeEolFrom false cs
          else if c = '\u2028' then '\u000a' :: normalizeEolFrom false cs
          else c :: normalizeEolFrom false cs from rfl,
        if_neg hcr, if_neg hor, if_neg hls, ih hrest]

/-- Dropping a prefix preserves cleanliness. -/
theorem isEolClean_drop (cs : List Char) (n : Nat) (h : isEolClean cs = true) :
    isEolClean (cs.drop n) = true := by
  simp only [isEolClean, List.all_eq_true] at h ⊢
  exact fun c hc => h c (List.mem_of_mem_drop hc)

/-! ### Claims about the read buffer and end-of-line normalization -/

/-- C9: End-of-line normalization is idempotent: applying the normalization
pass (starting with pending-CR clear) to text that is already its own output
yields that text unchanged. -/
theorem c9_normalization_idempotent (cs : List Char) :
    normalizeEol (normalizeEol cs) = normalizeEol cs :=
  normalizeEolFrom_id_of_clean _ (normalizeEolFrom_clean false cs)

/-- C4: Within a fill cycle, normalization is the one-pass map over the
decoded chunk: a refill normalizes the chunk starting from a clear flag, and
per character CR emits LF and sets pending-CR; LF or NEL emits nothing when
pending-CR was set (clearing it) and otherwise emits LF; LS always emits LF
and clears pending-CR; every other character is emitted unchanged and clears
pending-CR. -/
theorem c4_eol_one_pass_map :
    (∀ (chunks : List (List Char)) (chunk out : List Char) (pos : Nat),
      out.length ≤ pos →
      XmlReadBuffer.fill_buf ⟨chunk :: chunks, out, pos⟩ =
        (normalizeEol chunk, ⟨chunks, normalizeEol chunk, 0⟩)) ∧
    (∀ (s : Bool) (cs : List Char),
      normalizeEolFrom s ('\u000d' :: cs) = '\u000a' :: normalizeEolFrom true cs) ∧
    (∀ cs, normalizeEolFrom true ('\u000a' :: cs) = normalizeEolFrom false cs) ∧
    (∀ cs, normalizeEolFrom false ('\u000a' :: cs) =
      '\u000a' :: normalizeEolFrom false cs) ∧
    (∀ cs, normalizeEolFrom true ('\u0085' :: cs) = normalizeEolFrom false cs) ∧
    (∀ cs, normalizeEolFrom false ('\u0085' :: cs) =
      '\u000a' :: normalizeEolFrom false cs) ∧
    (∀ (s : Bool) (cs : List Char),
      normalizeEolFrom s ('\u2028' :: cs) = '\u000a' :: normalizeEolFrom false cs) ∧
    (∀ (s : Bool) (c : Char) (cs : List Char),
      c ≠ '\u000d' → c ≠ '\u000a' → c ≠ '\u0085' → c ≠ '\u2028' →
      normalizeEolFrom s (c :: cs) = c :: normalizeEolFrom false cs) := by
  refine ⟨?_, fun _ _ => rfl, fun _ => rfl, fun _ => rfl, fun _ => rfl, fun _ => rfl,
    fun _ _ => rfl, ?_⟩
  · intro chunks chunk out pos h
    simp [XmlReadBuffer.fill_buf, h]
  · intro s c cs h1 h2 h3 h4
    have hor : ¬(c = '\u000a' ∨ c = '\u0085') := by
      rintro (hc | hc) <;> [exact h2 hc; exact h3 hc]
    rw [show normalizeEolFrom s (c :: cs) =
        if c = '\u000d' then '\u000a' :: normalizeEolFrom true cs
        else if c = '\u000a' ∨ c = '\u0085' then
          if s then normalizeEolFrom false cs
          else '\u000a' :: normalizeEolFrom s cs
        else if c = '\u2028' then '\u000a' :: normalizeEolFrom false cs
        else c :: normalizeEolFrom false cs from rfl,
      if_neg h1, if_neg hor, if_neg h4]

/-- Witness for C4 at concrete inputs: a refill on a one-chunk stream and the
other-character case at `x`. -/
theorem c4_witness :
    XmlReadBuffer.fill_buf ⟨[['x']], [], 0⟩ =
      (normalizeEol ['x'], ⟨[], normalizeEol ['x'], 0⟩) ∧
    normalizeEolFrom false ['x'] = 'x' :: normalizeEolFrom false [] :=
  ⟨c4_eol_one_pass_map.1 [] ['x'] [] 0 (Nat.le_refl 0),
   c4_eol_one_pass_map.2.2.2.2.2.2.2 false 'x' [] (by decide) (by decide) (by decide)
     (by decide)⟩

/-- C10: The output buffer starts clean and every `fill_buf` call both
returns a slice free of CR, NEL and LS and leaves a clean output buffer. -/
theorem c10_fill_buf_output_clean :
    (∀ chunks, isEolClean (initReadBuffer chunks).output_buf = true) ∧
    (∀ b : XmlReadBuffer, isEolClean b.output_buf = true →
      isEolClean b.fill_buf.1 = true ∧ isEolClean b.fill_buf.2.output_buf = true) := by
  constructor
  · intro chunks; rfl
  · intro b h
    by_cases hc : b.output_buf.length ≤ b.output_pos
    · cases hch : b.chunks with
      | nil =>
        simp only [XmlReadBuffer.fill_buf, if_pos hc, hch]
        exact ⟨isEolClean_drop _ 0 (normalizeEolFrom_clean false []),
          normalizeEolFrom_clean false []⟩
      | cons chunk rest =>
        simp only [XmlReadBuffer.fill_buf, if_pos hc, hch]
        exact ⟨isEolClean_drop _ 0 (normalizeEolFrom_clean false chunk),
          normalizeEolFrom_clean false chunk⟩
    · simp only [XmlReadBuffer.fill_buf, if_neg hc]
      exact ⟨isEolClean_drop _ _ h, h⟩

/-- Witness for C10 at a concrete stream state with a clean output buffer. -/
theorem c10_witness :
    isEolClean (XmlReadBuffer.fill_buf ⟨[['a', '\u000d']], ['x'], 0⟩).1 = true ∧
    isEolClean (XmlReadBuffer.fill_buf ⟨[['a', '\u000d']], ['x'], 0⟩).2.output_buf = true :=
  c10_fill_buf_output_clean.2 ⟨[['a', '\u000d']], ['x'], 0⟩ (by decide)

/-- C2 (failing-input evaluation): a CR ending one decoded chunk followed by
an LF beginning the next chunk yields two LFs in the cumulative output — the
`seen_cr` flag is a local of `fill_buf` and does not survive across fill
cycles, so the split CRLF pair is not collapsed. -/
theorem c2_split_crlf_not_collapsed :
    readAllFuel 3 (initReadBuffer [['a', '\u000d'], ['\u000a', 'b']]) =
      ['a', '\u000a', '\u000a', 'b'] ∧
    (readAllFuel 3 (initReadBuffer [['a', '\u000d'], ['\u000a', 'b']])).count '\u000a'
      = 2 := ⟨rfl, rfl⟩

/-! ### Helper lemmas about the detection pipeline -/

/-- Bytes consumed by the declaration scan form a prefix of the unread
source. -/
theorem scanDecl_consumed_prefix (fuel : Nat) :
    ∀ (dec : Decoder) (w : Nat) (decl : List Char) (rest : List Nat)
      (d : List Char) (consumed : List Nat),
      scanDecl dec w decl rest fuel = .ok (d, consumed) → consumed <+: rest := by
  induction fuel with
  | zero =>
    intro dec w decl rest d consumed h
    rw [scanDecl] at h
    split at h
    · cases h
      exact List.nil_prefix
    · split at h
      · cases h
      · cases h
  | succ fuel ih =>
    intro dec w decl rest d consumed h
    rw [scanDecl] at h
    split at h
    · cases h
      exact List.nil_prefix
    · split at h
      · cases h
      · cases hdh : decoder_helper dec (rest.take w) with
        | error msg => rw [hdh] at h; cases h
        | ok pr =>
          rw [hdh] at h
          obtain ⟨dec', sdec⟩ := pr
          dsimp only at h
          split at h
          · cases h
          · cases hrec : scanDecl dec' w (decl ++ sdec) (rest.drop w) fuel with
            | error msg => rw [hrec] at h; cases h
            | ok dc =>
              rw [hrec] at h
              obtain ⟨d1, c1⟩ := dc
              dsimp only at h
              simp only [Except.ok.injEq, Prod.mk.injEq] at h
              obtain ⟨h1, h2⟩ := h
              subst h2
              obtain ⟨t, ht⟩ := ih dec' w (decl ++ sdec) (rest.drop w) d1 c1 hrec
              exact ⟨t, by rw [List.append_assoc, ht, List.take_append_drop]⟩

/-- The no-declaration resolution returns the prebuffer unchanged. -/
theorem resolveNoDecl_ok_pre (sugg : Option String) (g : Encoding) (p : List Nat)
    (e : Encoding) (pre : List Nat)
    (h : resolveNoDecl sugg g p = .ok (e, pre)) : pre = p := by
  unfold resolveNoDecl at h
  split at h
  · cases h; rfl
  · cases sugg with
    | none => cases h
    | some name =>
      dsimp only at h
      cases hnm : Encoding.new_from_name name true with
      | error msg => rw [hnm] at h; simp only [Except.map] at h; cases h
      | ok enc =>
        rw [hnm] at h
        simp only [Except.map, Except.ok.injEq, Prod.mk.injEq] at h
        exact h.2.symm

/-- The declaration resolution returns the prebuffer unchanged when it
succeeds. -/
theorem resolveFromDecl_ok_pre (sugg : Option String) (g : Encoding) (p : List Nat)
    (decl : List Char) (e : Encoding) (pre : List Nat)
    (h : resolveFromDecl sugg g p decl = .ok (e, pre)) : pre = p := by
  unfold resolveFromDecl at h
  cases hm : (tokenizeDecl decl).dropWhile (fun t => t ≠ encodingTok) with
  | nil => rw [hm] at h; cases h; rfl
  | cons t rest =>
    rw [hm] at h
    dsimp only at h
    cases rest with
    | nil =>
      cases sugg with
      | some name =>
        dsimp only at h
        cases hnm : Encoding.new_from_name name false with
        | error msg => rw [hnm] at h; simp only [Except.map] at h; cases h
        | ok enc =>
          rw [hnm] at h
          simp only [Except.map, Except.ok.injEq, Prod.mk.injEq] at h
          exact h.2.symm
      | none =>
        dsimp only at h
        cases hnm : Encoding.new_from_name ("utf-8") false with
        | error msg => rw [hnm] at h; simp only [Except.map] at h; cases h
        | ok enc =>
          rw [hnm] at h
          simp only [Except.map, Except.ok.injEq, Prod.mk.injEq] at h
          exact h.2.symm
    | cons v vs =>
      cases v with
      | nil => dsimp only at h; cases h
      | cons q cs =>
        dsimp only at h
        split at h
        · cases hc : Encoding.encoding_decl_is_compatible g
              (String.mk (cs.takeWhile (fun c => c ≠ q))) with
          | error msg => rw [hc] at h; cases h
          | ok b =>
            rw [hc] at h
            cases b
            · cases h
            · cases h; rfl
        · cases h; rfl

/-- A successful quad guess strips at most four bytes of BOM. -/
theorem new_from_buffer_k_le (q : List Nat) (g : Encoding) (k : Nat)
    (h : Encoding.new_from_buffer q = .ok (g, k)) : k ≤ 4 := by
  match q with
  | [] => exact absurd h (by simp [Encoding.new_from_buffer])
  | [_] => exact absurd h (by simp [Encoding.new_from_buffer])
  | [_, _] => exact absurd h (by simp [Encoding.new_from_buffer])
  | [_, _, _] => exact absurd h (by simp [Encoding.new_from_buffer])
  | _ :: _ :: _ :: _ :: _ :: _ => exact absurd h (by simp [Encoding.new_from_buffer])
  | [b0, b1, b2, b3] =>
    unfold Encoding.new_from_buffer at h
    dsimp only at h
    by_cases h1 : b0 = 0xEF ∧ b1 = 0xBB ∧ b2 = 0xBF
    · rw [if_pos h1] at h
      rw [show (Encoding.new_from_name ("utf-8") true).map (fun e => (e, 3)) =
          Except.ok ((Encoding.Utf8 true), 3) from rfl] at h
      simp only [Except.ok.injEq, Prod.mk.injEq] at h
      omega
    · rw [if_neg h1] at h
      by_cases h2 : b0 = 0xFF ∧ b1 = 0xFE ∧ b2 ≠ 0x00 ∧ b3 = 0x00
      · rw [if_pos h2] at h
        rw [show (Encoding.new_from_name ("utf-16le") true).map (fun e => (e, 2)) =
            Except.ok ((Encoding.Utf16Le true), 2) from rfl] at h
        simp only [Except.ok.injEq, Prod.mk.injEq] at h
        omega
      · rw [if_neg h2] at h
        by_cases h3 : b0 = 0xFE ∧ b1 = 0xFF ∧ b2 = 0x00 ∧ b3 ≠ 0x00
        · rw [if_pos h3] at h
          rw [show (Encoding.new_from_name ("utf-16be") true).map (fun e => (e, 2)) =
              Except.ok ((Encoding.Utf16Be true), 2) from rfl] at h
          simp only [Except.ok.injEq, Prod.mk.injEq] at h
          omega
        · rw [if_neg h3] at h
          by_cases h4 : b0 = 0x3C ∧ b1 = 0x3F ∧ b2 = 0x78 ∧ b3 = 0x6D
          · rw [if_pos h4] at h
            rw [show (Encoding.new_from_name ("utf-8") false).map (fun e => (e, 0)) =
                Except.ok ((Encoding.Utf8 false), 0) from rfl] at h
            simp only [Except.ok.injEq, Prod.mk.injEq] at h
            omega
          · rw [if_neg h4] at h
            by_cases h5 : b0 = 0x3C ∧ b1 = 0x00 ∧ b2 = 0x3F ∧ b3 = 0x00
            · rw [if_pos h5] at h
              rw [show (Encoding.new_from_name ("utf-16le") true).map (fun e => (e, 0)) =
                  Except.ok ((Encoding.Utf16Le true), 0) from rfl] at h
              simp only [Except.ok.injEq, Prod.mk.injEq] at h
              omega
            · rw [if_neg h5] at h
              by_cases h6 : b0 = 0x00 ∧ b1 = 0x3C ∧ b2 = 0x00 ∧ b3 = 0x3F
              · rw [if_pos h6] at h
                rw [show (Encoding.new_from_name ("utf-16be") true).map (fun e => (e, 0)) =
                    Except.ok ((Encoding.Utf16Be true), 0) from rfl] at h
                simp only [Except.ok.injEq, Prod.mk.injEq] at h
                omega
              · rw [if_neg h6] at h
                by_cases h7 : b0 = 0x00 ∨ b1 = 0x00 ∨ b2 = 0x00 ∨ b3 = 0x00
                · rw [if_pos h7] at h
                  cases h
                · rw [if_neg h7] at h
                  rw [show (Encoding.new_from_name ("utf-8") false).map (fun e => (e, 0)) =
                      Except.ok ((Encoding.Utf8 false), 0) from rfl] at h
                  simp only [Except.ok.injEq, Prod.mk.injEq] at h
                  omega


/-! ### Claims about the detection pipeline -/

/-- C1 (failing-input evaluation): on the ASCII input
`<?xml version="1.0" encoding="iso-8859-1"?>` (no BOM, non-definitive
guess), detection succeeds but returns the heuristic UTF-8 non-definitive
guess, not the declared iso-8859-1; moreover the declared name is not even a
resolvable decode target. -/
theorem c1_declared_encoding_not_returned :
    detect_encoding_with_suggestion none c1Input = .ok (.Utf8 false, c1Input) ∧
    (∀ d : Bool, Encoding.new_from_name ("iso-8859-1") d =
      .error ("Unsupported encoding requested: windows-1252")) :=
  ⟨rfl, fun d => by cases d <;> rfl⟩

/-- C8 (failing-input evaluation): on the ASCII input
`<?xml version="1.0" encoding=utf-8?>`, whose encoding value is unquoted,
detection succeeds (returning the non-definitive guess) instead of failing
with the malformed-declaration error: the code treats the first character of
the value token as the quote character. -/
theorem c8_unquoted_value_not_rejected :
    detect_encoding_with_suggestion none c8Input = .ok (.Utf8 false, c8Input) := rfl

/-- C6 counterexample: the suggestion `iso-8859-1` — a recognized encoding
label — on an input with no BOM and no declaration makes detection fail with
an unsupported-encoding error rather than return that encoding marked
definitive. -/
theorem c6_counterexample :
    detect_encoding_with_suggestion (some ("iso-8859-1")) c6Input =
      .error ("Unsupported encoding requested: windows-1252") := rfl

/-- C6 (amended): when the declaration lead check fails, detection resolves
through `resolveNoDecl`; for a non-definitive guess a suggestion naming a
supported decode target is returned marked definitive, a suggestion naming
any other encoding fails with the name-resolution error, and no suggestion
fails with the ambiguous-input error. -/
theorem c6_suggestion_resolution :
    (∀ (sugg : Option String) (src : List Nat) (guess : Encoding)
        (prebuf rest : List Nat) (dec0 dec1 : Decoder),
      detectStage1 src = .ok (guess, prebuf, rest) →
      guess.get_decoder = .ok dec0 →
      checkDeclLead dec0 guess.get_char_width prebuf declLiteral = (false, dec1) →
      detect_encoding_with_suggestion sugg src = resolveNoDecl sugg guess prebuf) ∧
    (∀ (guess : Encoding) (prebuf : List Nat) (name : String) (e : Encoding),
      guess.is_definitive = false →
      Encoding.new_from_name name true = .ok e →
      resolveNoDecl (some name) guess prebuf = .ok (e, prebuf)) ∧
    (∀ (guess : Encoding) (prebuf : List Nat) (name msg : String),
      guess.is_definitive = false →
      Encoding.new_from_name name true = .error msg →
      resolveNoDecl (some name) guess prebuf = .error msg) ∧
    (∀ (guess : Encoding) (prebuf : List Nat),
      guess.is_definitive = false →
      resolveNoDecl none guess prebuf = .error noBomNoDeclMsg) := by
  refine ⟨?_, ?_, ?_, ?_⟩
  · intro sugg src guess prebuf rest dec0 dec1 h1 h2 h3
    unfold detect_encoding_with_suggestion
    rw [h1]
    dsimp only
    rw [h2]
    dsimp only
    rw [h3]
    rfl
  · intro guess prebuf name e hdef hname
    simp only [resolveNoDecl, hdef, Bool.false_eq_true, if_false, hname, Except.map]
  · intro guess prebuf name msg hdef hname
    simp only [resolveNoDecl, hdef, Bool.false_eq_true, if_false, hname, Except.map]
  · intro guess prebuf hdef
    simp only [resolveNoDecl, hdef, Bool.false_eq_true, if_false]

/-- Witness for C6 at concrete inputs: the link between `detect` and
`resolveNoDecl` on the `abcdef` source, a supported suggestion, an
unsupported suggestion, and the no-suggestion failure. -/
theorem c6_witness :
    detect_encoding_with_suggestion none c6Input =
      resolveNoDecl none (.Utf8 false) c6Input ∧
    resolveNoDecl (some ("utf-16le")) (.Utf8 false) c6Input =
      .ok (.Utf16Le true, c6Input) ∧
    resolveNoDecl (some ("iso-8859-1")) (.Utf8 false) c6Input =
      .error ("Unsupported encoding requested: windows-1252") ∧
    resolveNoDecl none (.Utf8 false) c6Input = .error noBomNoDeclMsg :=
  ⟨c6_suggestion_resolution.1 none c6Input (.Utf8 false) c6Input [] (.utf8 []) (.utf8 [])
      rfl rfl rfl,
   c6_suggestion_resolution.2.1 (.Utf8 false) c6Input ("utf-16le") (.Utf16Le true) rfl rfl,
   c6_suggestion_resolution.2.2.1 (.Utf8 false) c6Input ("iso-8859-1")
      ("Unsupported encoding requested: windows-1252") rfl rfl,
   c6_suggestion_resolution.2.2.2 (.Utf8 false) c6Input rfl⟩


/-- C5: When the guess is definitive and the declaration carries an encoding
value, the resolution compares the declared name's canonical encoding with
the guess: a different canonical name fails with the encoding-mismatch
error, the same canonical name returns the definitive guess unchanged.  The
second conjunct evaluates the whole detector on a UTF-16LE BOM followed by a
declaration claiming utf-8. -/
theorem c5_definitive_vs_declared :
    (∀ (sugg : Option String) (guess : Encoding) (prebuf : List Nat)
        (xml_decl : List Char) (v : List Char) (ts : List (List Char)) (q : Char)
        (cs : List Char) (canonical : String),
      guess.is_definitive = true →
      (tokenizeDecl xml_decl).dropWhile (fun t => t ≠ encodingTok) =
        encodingTok :: v :: ts →
      v = q :: cs →
      forLabel (String.mk (cs.takeWhile (fun c => c ≠ q))) = some canonical →
      ((asciiLower canonical ≠ asciiLower guess.get_name →
        resolveFromDecl sugg guess prebuf xml_decl =
          .error (incompatibleMsg guess.get_name
            (String.mk (cs.takeWhile (fun c => c ≠ q))))) ∧
       (asciiLower canonical = asciiLower guess.get_name →
        resolveFromDecl sugg guess prebuf xml_decl = .ok (guess, prebuf)))) ∧
    detect_encoding_with_suggestion none c5Input =
      .error (incompatibleMsg "utf-16le" "utf-8") := by
  constructor
  · intro sugg guess prebuf xml_decl v ts q cs canonical hdef htok hv hlab
    subst hv
    have hcompat : Encoding.encoding_decl_is_compatible guess
        (String.mk (cs.takeWhile (fun c => c ≠ q))) =
        .ok (asciiLower guess.get_name = asciiLower canonical : Bool) := by
      unfold Encoding.encoding_decl_is_compatible
      rw [hlab]
      dsimp only
      by_cases heq : asciiLower guess.get_name = asciiLower canonical
      · rw [if_pos heq]
        simp [heq]
      · rw [if_neg heq]
        rw [if_pos ⟨hdef, heq⟩]
        simp [heq]
    constructor
    · intro hne
      unfold resolveFromDecl
      rw [htok]
      dsimp only
      rw [if_pos hdef]
      rw [hcompat]
      have hb : (decide (asciiLower guess.get_name = asciiLower canonical)) = false := by
        simp only [decide_eq_false_iff_not]
        intro h
        exact hne h.symm
      rw [hb]
    · intro heq
      unfold resolveFromDecl
      rw [htok]
      dsimp only
      rw [if_pos hdef]
      rw [hcompat]
      have hb : (decide (asciiLower guess.get_name = asciiLower canonical)) = true := by
        simp only [decide_eq_true_eq]
        exact heq.symm
      rw [hb]
  · rfl

/-- Witness for C5: the mismatch case at the concrete UTF-16LE guess against
the declared name utf-8, and the agreement case against utf-16. -/
theorem c5_witness :
    resolveFromDecl none (.Utf16Le true) []
      (("<?xml version=\"1.0\" encoding=\"utf-8\"?>").toList) =
      .error (incompatibleMsg "utf-16le" "utf-8") ∧
    resolveFromDecl none (.Utf16Le true) []
      (("<?xml version=\"1.0\" encoding=\"utf-16\"?>").toList) =
      .ok (.Utf16Le true, []) :=
  ⟨(c5_definitive_vs_declared.1 none (.Utf16Le true) []
      (("<?xml version=\"1.0\" encoding=\"utf-8\"?>").toList)
      (("\"utf-8\"?>").toList) [] '\x22' (("utf-8\"?>").toList) ("UTF-8")
      rfl rfl rfl rfl).1 (by decide),
   (c5_definitive_vs_declared.1 none (.Utf16Le true) []
      (("<?xml version=\"1.0\" encoding=\"utf-16\"?>").toList)
      (("\"utf-16\"?>").toList) [] '\x22' (("utf-16\"?>").toList) ("UTF-16LE")
      rfl rfl rfl rfl).2 (by decide)⟩


/-- C3: The three BOM patterns yield their definitive encodings with the
right BOM width, and on any successful detection the returned prebuffer is
exactly the block of source bytes following the stripped BOM — the consumed
region is the BOM followed by the prebuffer. -/
theorem c3_bom_patterns_and_prebuffer :
    (∀ d : Nat, Encoding.new_from_buffer [0xEF, 0xBB, 0xBF, d] = .ok (.Utf8 true, 3)) ∧
    (∀ c : Nat, c ≠ 0 →
      Encoding.new_from_buffer [0xFF, 0xFE, c, 0] = .ok (.Utf16Le true, 2)) ∧
    (∀ d : Nat, d ≠ 0 →
      Encoding.new_from_buffer [0xFE, 0xFF, 0, d] = .ok (.Utf16Be true, 2)) ∧
    (∀ (sugg : Option String) (src : List Nat) (g e : Encoding) (k : Nat)
        (pre : List Nat),
      Encoding.new_from_buffer (src.take 4) = .ok (g, k) →
      detect_encoding_with_suggestion sugg src = .ok (e, pre) →
      src.take k ++ pre = src.take (k + pre.length)) := by
  refine ⟨?_, ?_, ?_, ?_⟩
  · intro d
    unfold Encoding.new_from_buffer
    dsimp only
    rw [if_pos ⟨rfl, rfl, rfl⟩]
    rfl
  · intro c hc
    unfold Encoding.new_from_buffer
    dsimp only
    rw [if_neg (fun hcon => absurd hcon.1 (by decide)), if_pos ⟨rfl, rfl, hc, rfl⟩]
    rfl
  · intro d hd
    unfold Encoding.new_from_buffer
    dsimp only
    rw [if_neg (fun hcon => absurd hcon.1 (by decide)),
      if_neg (fun hcon => absurd hcon.1 (by decide)), if_pos ⟨rfl, rfl, rfl, hd⟩]
    rfl
  · intro sugg src g e k pre hquad hdet
    have hk4 : k ≤ 4 := new_from_buffer_k_le _ _ _ hquad
    by_cases hlen : src.length < 4
    · exfalso
      have hst : detectStage1 src = .error readExactEofMsg := by
        unfold detectStage1
        rw [if_pos hlen]
      unfold detect_encoding_with_suggestion at hdet
      rw [hst] at hdet
      cases hdet
    · by_cases hrl : (src.drop 4).length <
          6 * g.get_char_width - ((src.take 4).drop k).length
      · exfalso
        have hst : detectStage1 src = .error readExactEofMsg := by
          unfold detectStage1
          rw [if_neg hlen, hquad]
          dsimp only
          rw [if_pos hrl]
        unfold detect_encoding_with_suggestion at hdet
        rw [hst] at hdet
        cases hdet
      · set need := 6 * g.get_char_width - ((src.take 4).drop k).length with hneed
        set P := (src.take 4).drop k ++ (src.drop 4).take need with hP
        set R := (src.drop 4).drop need with hR
        have hst : detectStage1 src = .ok (g, P, R) := by
          unfold detectStage1
          rw [if_neg hlen, hquad]
          dsimp only
          rw [if_neg hrl]
        have hPR : P ++ R = src.drop k := by
          rw [hP, hR, List.append_assoc, List.take_append_drop, List.drop_take,
            show src.drop 4 = (src.drop k).drop (4 - k) from by
              rw [List.drop_drop]
              congr 1
              omega,
            List.take_append_drop]
        have hprefix : pre <+: src.drop k := by
          unfold detect_encoding_with_suggestion at hdet
          rw [hst] at hdet
          dsimp only at hdet
          cases hdec : g.get_decoder with
          | error msg => rw [hdec] at hdet; cases hdet
          | ok dec0 =>
            rw [hdec] at hdet
            dsimp only at hdet
            by_cases hhd : (checkDeclLead dec0 g.get_char_width P declLiteral).1 = true
            · rw [if_pos hhd] at hdet
              cases hdh : decoder_helper
                  (checkDeclLead dec0 g.get_char_width P declLiteral).2 P with
              | error msg => rw [hdh] at hdet; cases hdet
              | ok pr =>
                rw [hdh] at hdet
                obtain ⟨dec2, declStr⟩ := pr
                dsimp only at hdet
                cases hsc : scanDecl dec2 g.get_char_width declStr R R.length with
                | error msg => rw [hsc] at hdet; cases hdet
                | ok dc =>
                  rw [hsc] at hdet
                  obtain ⟨xd, consumed⟩ := dc
                  dsimp only at hdet
                  have hpre : pre = P ++ consumed :=
                    resolveFromDecl_ok_pre _ _ _ _ _ _ hdet
                  obtain ⟨t2, ht2⟩ := scanDecl_consumed_prefix _ _ _ _ _ _ _ hsc
                  refine ⟨t2, ?_⟩
                  rw [hpre, List.append_assoc, ht2, hPR]
            · rw [if_neg hhd] at hdet
              have hpre : pre = P := resolveNoDecl_ok_pre _ _ _ _ _ hdet
              exact ⟨R, by rw [hpre, hPR]⟩
        have hpre2 : pre = (src.drop k).take pre.length :=
          List.prefix_iff_eq_take.mp hprefix
        rw [List.take_add, ← hpre2]

/-- Witness for C3: the three BOM quads at concrete fourth bytes, and the
prebuffer equation on a concrete UTF-8 BOM source. -/
theorem c3_witness :
    Encoding.new_from_buffer [0xEF, 0xBB, 0xBF, 0x41] = .ok (.Utf8 true, 3) ∧
    Encoding.new_from_buffer [0xFF, 0xFE, 0x3C, 0x00] = .ok (.Utf16Le true, 2) ∧
    Encoding.new_from_buffer [0xFE, 0xFF, 0x00, 0x3C] = .ok (.Utf16Be true, 2) ∧
    List.take 3 c3Input ++ (("ABCDEF").toList.map Char.toNat) =
      List.take (3 + (("ABCDEF").toList.map Char.toNat).length) c3Input :=
  ⟨c3_bom_patterns_and_prebuffer.1 0x41,
   c3_bom_patterns_and_prebuffer.2.1 0x3C (by decide),
   c3_bom_patterns_and_prebuffer.2.2.1 0x3C (by decide),
   c3_bom_patterns_and_prebuffer.2.2.2 none c3Input (.Utf8 true) (.Utf8 true) 3
     (("ABCDEF").toList.map Char.toNat) rfl rfl⟩


/-- Valid code points below the surrogate range round-trip through
`Char.ofNat`. -/
theorem charOfNat_toNat (b : Nat) (hb : b < 0xD800) : (Char.ofNat b).toNat = b := by
  unfold Char.ofNat
  rw [dif_pos (Or.inl hb)]
  rfl

/-- A single ASCII byte decodes to its own character and leaves the UTF-8
decoder clean. -/
theorem decoder_helper_ascii (b : Nat) (hb : b < 0x80) :
    decoder_helper (.utf8 []) [b] = .ok (.utf8 [], [Char.ofNat b]) := by
  have h1 : utf8Run [b] = .ok ([Char.ofNat b], []) := by
    simp only [utf8Run]
    rw [if_pos hb]
    rfl
  unfold decoder_helper
  dsimp only
  rw [List.nil_append, h1]

/-- Appending an ASCII character adds one byte of UTF-8 length. -/
theorem utf8Length_append_ascii (decl : List Char) (c : Char) (hc : c.toNat < 0x80) :
    utf8Length (decl ++ [c]) = utf8Length decl + 1 := by
  unfold utf8Length
  rw [List.map_append, List.sum_append]
  simp [charUtf8Size, hc]

/-- A declaration containing no greater-than sign never ends with the
terminator. -/
theorem noGt_not_suffix (decl : List Char) (h : ∀ c ∈ decl, c ≠ '>') :
    (['?', '>']).isSuffixOf decl = false := by
  rw [← Bool.not_eq_true, List.isSuffixOf_iff_suffix]
  rintro ⟨t, ht⟩
  exact h '>' (by rw [← ht]; simp) rfl

/-- The declaration scan over printable ASCII bytes with no closing
greater-than sign fails with the malformed-declaration error once the
declaration exceeds the 256-byte cap. -/
theorem scanDecl_ascii_cap :
    ∀ (fuel : Nat) (decl : List Char) (body : List Nat),
      (∀ b ∈ body, 0x20 ≤ b ∧ b ≤ 0x7E ∧ b ≠ 0x3E) →
      (∀ c ∈ decl, c.toNat ≤ 0x7E ∧ c ≠ '>') →
      utf8Length decl ≤ 256 →
      257 - utf8Length decl ≤ body.length →
      body.length ≤ fuel →
      scanDecl (.utf8 []) 1 decl body fuel = .error malformedDeclMsg := by
  intro fuel
  induction fuel with
  | zero =>
    intro decl body hbody hdecl hcap hlen hfuel
    exact absurd hfuel (by omega)
  | succ fuel ih =>
    intro decl body hbody hdecl hcap hlen hfuel
    have hsuf : (['?', '>']).isSuffixOf decl = false :=
      noGt_not_suffix decl (fun c hc => (hdecl c hc).2)
    rw [scanDecl, hsuf]
    rw [if_neg Bool.false_ne_true]
    cases body with
    | nil => exact absurd hlen (by simp; omega)
    | cons b bs =>
      obtain ⟨hb1, hb2, hb3⟩ := hbody b (List.mem_cons_self b bs)
      rw [if_neg (by simp only [List.length_cons]; omega)]
      dsimp only
      rw [show (b :: bs).take 1 = [b] from rfl,
        decoder_helper_ascii b (by omega)]
      dsimp only
      have hct : (Char.ofNat b).toNat = b := charOfNat_toNat b (by omega)
      have hlen1 : utf8Length (decl ++ [Char.ofNat b]) = utf8Length decl + 1 :=
        utf8Length_append_ascii decl (Char.ofNat b) (by omega)
      by_cases hover : utf8Length (decl ++ [Char.ofNat b]) > 256
      · rw [if_pos hover]
      · rw [if_neg hover]
        have hdecl' : ∀ c ∈ decl ++ [Char.ofNat b], c.toNat ≤ 0x7E ∧ c ≠ '>' := by
          intro c hc
          rcases List.mem_append.mp hc with hc | hc
          · exact hdecl c hc
          · rw [List.mem_singleton] at hc
            subst hc
            refine ⟨by omega, fun hgt => ?_⟩
            rw [hgt] at hct
            exact hb3 (by rw [← hct]; rfl)
        rw [show List.drop 1 (b :: bs) = bs from rfl]
        rw [ih (decl ++ [Char.ofNat b]) bs
          (fun x hx => hbody x (List.mem_cons_of_mem b hx)) hdecl'
          (by omega) (by simp only [List.length_cons] at hlen; omega)
          (by simp only [List.length_cons] at hfuel; omega)]

/-- C7: For every input whose declaration lead is `<?xml ` followed by
printable ASCII with no greater-than sign (so the declaration never closes
with the terminator), detection fails with the malformed-declaration error
once the accumulated declaration exceeds 256 characters, however long the
input is. -/
theorem c7_unclosed_decl_capped (sugg : Option String) (body : List Nat)
    (hbody : ∀ b ∈ body, 0x20 ≤ b ∧ b ≤ 0x7E ∧ b ≠ 0x3E)
    (hlen : 251 ≤ body.length) :
    detect_encoding_with_suggestion sugg
      ([0x3C, 0x3F, 0x78, 0x6D, 0x6C, 0x20] ++ body) = .error malformedDeclMsg := by
  have hlen4 : ¬(([0x3C, 0x3F, 0x78, 0x6D, 0x6C, 0x20] ++ body).length < 4) := by
    simp only [List.length_append, List.length_cons, List.length_nil]
    omega
  have hquad : Encoding.new_from_buffer
      (([0x3C, 0x3F, 0x78, 0x6D, 0x6C, 0x20] ++ body).take 4) =
      .ok (.Utf8 false, 0) := rfl
  have hguard : ¬((([0x3C, 0x3F, 0x78, 0x6D, 0x6C, 0x20] ++ body).drop 4).length <
      6 * (Encoding.Utf8 false).get_char_width -
      ((([0x3C, 0x3F, 0x78, 0x6D, 0x6C, 0x20] ++ body).take 4).drop 0).length) := by
    have h1 : List.drop 4 ([0x3C, 0x3F, 0x78, 0x6D, 0x6C, 0x20] ++ body) =
        0x6C :: 0x20 :: body := rfl
    have h2 : (List.drop 0 (List.take 4 ([0x3C, 0x3F, 0x78, 0x6D, 0x6C, 0x20] ++ body))).length
        = 4 := rfl
    have h3 : 6 * (Encoding.Utf8 false).get_char_width = 6 := rfl
    rw [h1, h2, h3]
    simp only [List.length_cons]
    omega
  have hst : detectStage1 ([0x3C, 0x3F, 0x78, 0x6D, 0x6C, 0x20] ++ body) =
      .ok (.Utf8 false, [0x3C, 0x3F, 0x78, 0x6D, 0x6C, 0x20], body) := by
    unfold detectStage1
    rw [if_neg hlen4, hquad]
    dsimp only
    rw [if_neg hguard]
    rfl
  unfold detect_encoding_with_suggestion
  rw [hst]
  dsimp only
  rw [show (Encoding.Utf8 false).get_decoder = .ok (.utf8 []) from rfl]
  dsimp only
  rw [show (Encoding.Utf8 false).get_char_width = 1 from rfl]
  rw [show checkDeclLead (.utf8 []) 1 [0x3C, 0x3F, 0x78, 0x6D, 0x6C, 0x20] declLiteral =
      (true, Decoder.utf8 []) from rfl]
  rw [if_pos (show ((true, Decoder.utf8 [])).1 = true from rfl)]
  dsimp only
  rw [show decoder_helper (.utf8 []) [0x3C, 0x3F, 0x78, 0x6D, 0x6C, 0x20] =
      .ok (.utf8 [], ['<', '?', 'x', 'm', 'l', ' ']) from rfl]
  dsimp only
  rw [scanDecl_ascii_cap body.length ['<', '?', 'x', 'm', 'l', ' '] body hbody
    (by decide) (by decide)
    (by rw [show utf8Length ['<', '?', 'x', 'm', 'l', ' '] = 6 from rfl]; omega)
    (Nat.le_refl _)]

/-- Witness for C7: a declaration lead followed by 251 letters `a` and no
terminator fails with the malformed-declaration error. -/
theorem c7_witness :
    detect_encoding_with_suggestion none
      ([0x3C, 0x3F, 0x78, 0x6D, 0x6C, 0x20] ++ List.replicate 251 0x61) =
      .error malformedDeclMsg :=
  c7_unclosed_decl_capped none (List.replicate 251 0x61)
    (by
      intro b hb
      rw [List.eq_of_mem_replicate hb]
      exact ⟨by omega, by omega, by omega⟩)
    (by rw [List.length_replicate])


end Xmlbufrw
